import Mathlib

/-!
Verification development for the OllamaPDF2Markdown batch-extraction pipeline.

The repository contains several near-duplicate pipeline scripts:
  - `pdf2md.py` and `png2md.py` (identical extraction loops, called v1 below),
  - `pdf_to_markdown_gui.py` (v1 loop plus an explicit file-existence check),
  - `src/pdf2mdv2.py` (v2 loop: per-page exception recovery and periodic flush),
  - `src/pdf_to_markdown_guiv2.py` (v2 behaviour without periodic flush).

The external collaborators are modelled as follows:
  - the model endpoint (`ollama.chat`) as a deterministic stub
    `String → Response` mapping an image path to the call's outcome;
  - file existence (`open` succeeding / `os.path.exists`) as a predicate
    `String → Bool` on paths;
  - the report writer (`save_output`) as the list of payload strings passed
    to it, in call order, plus an explicit filesystem model for `save_output`
    itself.
-/

/-- Outcome of one `ollama.chat` call for a page image: a response that is a
dict with a `message.content` field (`ok content`), a response of unexpected
shape (`badShape`), or an exception raised by the call (`transportError`). -/
inductive Response where
  | ok (content : String)
  | badShape
  | transportError (msg : String)
deriving DecidableEq

/-- Embedding of Python's `str.endswith`: the second string is a suffix of
the first. -/
def strEndsWith (s t : String) : Bool :=
  t.data.reverse.isPrefixOf s.data.reverse

/-- Lexicographic comparison of character lists, as Python compares
strings: the empty list first, otherwise by the first differing
character. -/
def charListLe : List Char → List Char → Bool
  | [], _ => true
  | _ :: _, [] => false
  | a :: as, b :: bs => if a < b then true else if b < a then false else charListLe as bs

/-- Lexicographic string order used by Python's `sorted` on paths. -/
def pathLe (s t : String) : Bool :=
  charListLe s.data t.data

/-- The lexicographic order as a (decidable) relation. -/
def pathOrder (s t : String) : Prop :=
  pathLe s t = true

instance pathOrder.instDecidableRel : DecidableRel pathOrder :=
  fun s t => instDecidableEqBool (pathLe s t) true

/-- Embedding of Python's `sorted` on a list of path strings: ascending
lexicographic order. -/
def sortPaths (files : List String) : List String :=
  List.insertionSort pathOrder files

/-- Concatenation of a list of markdown fragments, in order. -/
def concatFrags : List String → String
  | [] => ""
  | s :: rest => s ++ concatFrags rest

/-- The fragment a page contributes when it is successfully processed:
the response's content field followed by the blank-line separator, or
nothing when the file is missing or the model call fails. -/
def pageFragment (fs : String → Bool) (stub : String → Response) (p : String) :
    Option String :=
  if fs p then
    match stub p with
    | .ok c => some (c ++ "\n\n")
    | _ => none
  else none

namespace Pdf2md

/-- Loop of `process_images_with_model` in `pdf2md.py` (lines 62–92), over the
already-sorted list.  For each image: `open` raises `FileNotFoundError` when
the file is missing (uncaught, aborting the run), `ollama.chat` is issued
(an exception it raises is uncaught and aborts the run), and a response of
unexpected shape executes `break`, returning the content accumulated so far.
The `Nat` component counts `ollama.chat` invocations. -/
def processGo (fs : String → Bool) (stub : String → Response) :
    List String → String → Nat → Except String (String × Nat)
  | [], acc, calls => .ok (acc, calls)
  | img :: rest, acc, calls =>
    if fs img then
      match stub img with
      | .ok c => processGo fs stub rest (acc ++ (c ++ "\n\n")) (calls + 1)
      | .badShape => .ok (acc, calls + 1)
      | .transportError m => .error m
    else
      .error ("FileNotFoundError: " ++ img)

/-- Embedding of `process_images_with_model` from `pdf2md.py`: sorts the
image list, then runs the extraction loop starting from an empty
accumulator. -/
def process_images_with_model (fs : String → Bool) (stub : String → Response)
    (imageFiles : List String) : Except String (String × Nat) :=
  processGo fs stub (sortPaths imageFiles) "" 0

/-- Embedding of the list comprehension in `convert_pdf_to_images`
(`pdf2md.py` lines 41–49): the scan keeps the directory-listing entries
ending in `.pdf`, in listing order; no sorting is applied. -/
def listPdfFiles (listing : List String) : List String :=
  listing.filter (fun f => strEndsWith f ".pdf")

end Pdf2md

namespace Png2md

/-- Embedding of `process_images_with_model` from `png2md.py` (lines 44–74);
its body is character-for-character identical to the one in `pdf2md.py`, so
it is defined as the same function. -/
def process_images_with_model (fs : String → Bool) (stub : String → Response)
    (imageFiles : List String) : Except String (String × Nat) :=
  Pdf2md.process_images_with_model fs stub imageFiles

/-- Embedding of steps 2–3 of `main` in `png2md.py` (lines 82–93): run the
extraction over the page list and, only when the combined content is
non-empty, pass it to `save_output` once.  The result is the list of
payloads written, or the uncaught exception. -/
def mainSaves (fs : String → Bool) (stub : String → Response)
    (imageFiles : List String) : Except String (List String) :=
  match process_images_with_model fs stub imageFiles with
  | .error e => .error e
  | .ok (content, _) => .ok (if content = "" then [] else [content])

end Png2md

namespace Gui

/-- Loop of `process_images_with_model` in `pdf_to_markdown_gui.py`
(lines 74–115), over the already-sorted list.  A missing file is reported
(`st.error`) and skipped with `continue`, issuing no model call; otherwise
the model is called, an `ok` response appends its content plus the
blank-line separator, an unexpected shape executes `break`, and an
exception raised by `ollama.chat` is uncaught and aborts the run.
The `Nat` component counts `ollama.chat` invocations. -/
def processGo (fs : String → Bool) (stub : String → Response) :
    List String → String → Nat → Except String (String × Nat)
  | [], acc, calls => .ok (acc, calls)
  | img :: rest, acc, calls =>
    if fs img then
      match stub img with
      | .ok c => processGo fs stub rest (acc ++ (c ++ "\n\n")) (calls + 1)
      | .badShape => .ok (acc, calls + 1)
      | .transportError m => .error m
    else
      processGo fs stub rest acc calls

/-- Embedding of `process_images_with_model` from `pdf_to_markdown_gui.py`:
sorts the image list, then runs the loop from an empty accumulator. -/
def process_images_with_model (fs : String → Bool) (stub : String → Response)
    (imageFiles : List String) : Except String (String × Nat) :=
  processGo fs stub (sortPaths imageFiles) "" 0

end Gui

/-- State of one run of the v2 loop (`src/pdf2mdv2.py`):
the `combined_content` string it returns (`residual`), the payloads passed
to `save_output` by the periodic flush, in order (`flushes`), and the number
of `ollama.chat` invocations (`calls`). -/
structure RunResult where
  residual : String
  flushes : List String
  calls : Nat
deriving DecidableEq

namespace Pdf2mdV2

/-- Loop of `process_images_with_model` in `src/pdf2mdv2.py` (lines 68–139),
over the already-sorted list; `idx` is the 1-based `enumerate` counter.
A missing file makes `open` raise, which the outer handler turns into
`continue` (no model call); an exception from `ollama.chat` is caught by
the inner handler (`continue`); an unexpected response shape is logged and
skipped (`continue`).  On success the content plus the blank-line separator
is appended, and when `idx % 5 == 0` and an output filename was given
(`hasOutput`), the accumulated content is passed to `save_output` and the
accumulator is cleared.  A `None` (or empty, hence falsy) output filename
is modelled as `hasOutput = false`. -/
def processGo (fs : String → Bool) (stub : String → Response) (hasOutput : Bool) :
    List String → Nat → String → RunResult
  | [], _, acc => ⟨acc, [], 0⟩
  | img :: rest, idx, acc =>
    if fs img then
      match stub img with
      | .ok c =>
        if idx % 5 == 0 && hasOutput then
          let r := processGo fs stub hasOutput rest (idx + 1) ""
          ⟨r.residual, (acc ++ (c ++ "\n\n")) :: r.flushes, r.calls + 1⟩
        else
          let r := processGo fs stub hasOutput rest (idx + 1) (acc ++ (c ++ "\n\n"))
          { r with calls := r.calls + 1 }
      | .badShape =>
        let r := processGo fs stub hasOutput rest (idx + 1) acc
        { r with calls := r.calls + 1 }
      | .transportError _ =>
        let r := processGo fs stub hasOutput rest (idx + 1) acc
        { r with calls := r.calls + 1 }
    else
      processGo fs stub hasOutput rest (idx + 1) acc

/-- Embedding of `process_images_with_model` from `src/pdf2mdv2.py`: sorts
the image list, then runs the loop with `enumerate` starting at 1 and an
empty accumulator. -/
def process_images_with_model (fs : String → Bool) (stub : String → Response)
    (hasOutput : Bool) (imageFiles : List String) : RunResult :=
  processGo fs stub hasOutput (sortPaths imageFiles) 1 ""

/-- Embedding of the write behaviour of `main` in `src/pdf2mdv2.py`
(lines 176–182): the periodic flush payloads emitted during processing,
followed by one final `save_output` of the returned content — but only if
that content is non-empty (`if combined_content:`). -/
def mainWrites (fs : String → Bool) (stub : String → Response)
    (imageFiles : List String) : List String :=
  let r := process_images_with_model fs stub true imageFiles
  r.flushes ++ (if r.residual = "" then [] else [r.residual])

/-- Number of flush events (calls to `save_output`) in one run of `main`
over the given pages. -/
def flushEvents (fs : String → Bool) (stub : String → Response)
    (imageFiles : List String) : Nat :=
  (mainWrites fs stub imageFiles).length

end Pdf2mdV2

/-- Fixture: twelve page images, named so that the list is already in
ascending lexicographic order. -/
def pagesTwelve : List String :=
  ["p01.jpg", "p02.jpg", "p03.jpg", "p04.jpg", "p05.jpg", "p06.jpg",
    "p07.jpg", "p08.jpg", "p09.jpg", "p10.jpg", "p11.jpg", "p12.jpg"]

/-- Fixture: ten page images, named so that the list is already in
ascending lexicographic order. -/
def pagesTen : List String :=
  ["p01.jpg", "p02.jpg", "p03.jpg", "p04.jpg", "p05.jpg", "p06.jpg",
    "p07.jpg", "p08.jpg", "p09.jpg", "p10.jpg"]

/-- Prefix of the character list up to and including the last `'/'`
(`p[:i]` with `i = p.rfind(sep) + 1` in `posixpath.dirname`); empty when
there is no slash. -/
def headUpToLastSlash : List Char → List Char
  | [] => []
  | c :: cs =>
    if '/' ∈ cs then c :: headUpToLastSlash cs
    else if c = '/' then [c] else []

/-- Remove trailing `'/'` characters (the `head.rstrip(sep)` step of
`posixpath.dirname`). -/
def stripTrailingSlashes (l : List Char) : List Char :=
  (l.reverse.dropWhile (fun c => c = '/')).reverse

/-- Embedding of `os.path.dirname` (POSIX): keep everything before the last
slash; strip trailing slashes unless the head consists only of slashes. -/
def dirname (p : String) : String :=
  let head := headUpToLastSlash p.data
  if head.any (fun c => c != '/') then ⟨stripTrailingSlashes head⟩ else ⟨head⟩

/-- Filesystem as seen by `save_output`: which directories exist and each
file's current content (the empty string standing for a missing file,
since `open(filename, "a")` creates missing files). -/
structure SysFS where
  dirExists : String → Bool
  fileContent : String → String

/-- Embedding of `os.path.exists` on a directory path: the empty path never
exists. -/
def pathExists (fs : SysFS) (d : String) : Bool :=
  if d = "" then false else fs.dirExists d

/-- Embedding of `os.makedirs`: raises `FileNotFoundError` on the empty
path, otherwise creates the directory. -/
def makedirs (fs : SysFS) (d : String) : Except String SysFS :=
  if d = "" then .error "FileNotFoundError: [Errno 2] No such file or directory:"
  else .ok { fs with dirExists := fun x => if x = d then true else fs.dirExists x }

/-- Embedding of `open(filename, "a")` followed by `f.write(content)`:
append to the file, leaving every other file unchanged. -/
def appendFile (fs : SysFS) (name content : String) : SysFS :=
  { fs with
    fileContent := fun x =>
      if x = name then fs.fileContent name ++ content else fs.fileContent x }

/-- Embedding of `save_output` (`pdf2md.py` lines 51–60, `png2md.py`
lines 33–42, identical in the other scripts): if the directory part of
`filename` does not exist, call `makedirs` on it (which raises on the empty
path), then append the content to the file. -/
def save_output (fs : SysFS) (filename content : String) : Except String SysFS :=
  if pathExists fs (dirname filename) then
    .ok (appendFile fs filename content)
  else
    match makedirs fs (dirname filename) with
    | .error e => .error e
    | .ok fs' => .ok (appendFile fs' filename content)

/-! Helper lemmas about the lexicographic order, string appends and
fragment concatenation. -/

theorem charListLe_total (a b : List Char) :
    charListLe a b = true ∨ charListLe b a = true := by
  induction a generalizing b with
  | nil => exact Or.inl rfl
  | cons x xs ih =>
    cases b with
    | nil => exact Or.inr rfl
    | cons y ys =>
      by_cases hxy : x < y
      · exact Or.inl (by simp [charListLe, hxy])
      · by_cases hyx : y < x
        · exact Or.inr (by simp [charListLe, hyx])
        · rcases ih ys with h | h
          · exact Or.inl (by simp [charListLe, hxy, hyx, h])
          · exact Or.inr (by simp [charListLe, hxy, hyx, h])

theorem charListLe_trans {a b c : List Char} (hab : charListLe a b = true)
    (hbc : charListLe b c = true) : charListLe a c = true := by
  induction a generalizing b c with
  | nil => rfl
  | cons x xs ih =>
    cases b with
    | nil => simp [charListLe] at hab
    | cons y ys =>
      cases c with
      | nil => simp [charListLe] at hbc
      | cons z zs =>
        by_cases hxy : x < y
        · by_cases hyz : y < z
          · simp [charListLe, lt_trans hxy hyz]
          · by_cases hzy : z < y
            · simp [charListLe, hyz, hzy] at hbc
            · have hyz' : y = z := le_antisymm (not_lt.mp hzy) (not_lt.mp hyz)
              simp [charListLe, hyz' ▸ hxy]
        · by_cases hyx : y < x
          · simp [charListLe, hxy, hyx] at hab
          · have hxy' : x = y := le_antisymm (not_lt.mp hyx) (not_lt.mp hxy)
            subst hxy'
            simp only [charListLe, if_neg hxy, if_neg hyx] at hab
            by_cases hyz : x < z
            · simp [charListLe, hyz]
            · by_cases hzy : z < x
              · simp [charListLe, hyz, hzy] at hbc
              · simp only [charListLe, if_neg hyz, if_neg hzy] at hbc ⊢
                exact ih hab hbc

theorem charListLe_antisymm {a b : List Char} (hab : charListLe a b = true)
    (hba : charListLe b a = true) : a = b := by
  induction a generalizing b with
  | nil =>
    cases b with
    | nil => rfl
    | cons y ys => simp [charListLe] at hba
  | cons x xs ih =>
    cases b with
    | nil => simp [charListLe] at hab
    | cons y ys =>
      by_cases hxy : x < y
      · simp [charListLe, hxy, asymm hxy] at hba
      · by_cases hyx : y < x
        · simp [charListLe, hxy, hyx] at hab
        · have hxy' : x = y := le_antisymm (not_lt.mp hyx) (not_lt.mp hxy)
          subst hxy'
          simp only [charListLe, if_neg hxy, if_neg hyx] at hab hba
          rw [ih hab hba]

instance pathOrder.instIsTotal : IsTotal String pathOrder :=
  ⟨fun s t => charListLe_total s.data t.data⟩

instance pathOrder.instIsTrans : IsTrans String pathOrder :=
  ⟨fun _ _ _ hab hbc => charListLe_trans hab hbc⟩

instance pathOrder.instIsAntisymm : IsAntisymm String pathOrder :=
  ⟨fun _ _ hab hba => String.ext (charListLe_antisymm hab hba)⟩

/-- The sorted page list is ascending in the lexicographic path order. -/
theorem sortPaths_sorted (files : List String) :
    List.Sorted pathOrder (sortPaths files) :=
  List.sorted_insertionSort pathOrder files

/-- The sorted page list is a permutation of the input list. -/
theorem sortPaths_perm (files : List String) : (sortPaths files).Perm files :=
  List.perm_insertionSort pathOrder files

theorem strAppend_assoc (a b c : String) : a ++ b ++ c = a ++ (b ++ c) := by
  apply String.ext
  simp [String.data_append]

theorem strAppend_sep_ne_empty (s t : String) : s ++ (t ++ "\n\n") ≠ "" := by
  intro h
  have hd : (s ++ (t ++ "\n\n")).data = ("" : String).data := by rw [h]
  simp [String.data_append] at hd

theorem concatFrags_append (l₁ l₂ : List String) :
    concatFrags (l₁ ++ l₂) = concatFrags l₁ ++ concatFrags l₂ := by
  induction l₁ with
  | nil => simp [concatFrags, String.empty_append]
  | cons s rest ih => simp [concatFrags, ih, strAppend_assoc]

/-! Helper lemmas about the v2 extraction loop. -/

/-- With no output filename, the v2 loop never flushes and returns the
accumulator extended by the fragment of every successful page, in list
order; every existing page costs exactly one model call. -/
theorem Pdf2mdV2.processGo_noOutput (fs : String → Bool) (stub : String → Response)
    (l : List String) (idx : Nat) (acc : String) :
    Pdf2mdV2.processGo fs stub false l idx acc =
      ⟨acc ++ concatFrags (l.filterMap (pageFragment fs stub)), [],
        (l.filter fs).length⟩ := by
  induction l generalizing idx acc with
  | nil => simp [Pdf2mdV2.processGo, concatFrags, String.append_empty]
  | cons img rest ih =>
    by_cases hfs : fs img = true
    · cases hstub : stub img with
      | ok c =>
        simp [Pdf2mdV2.processGo, hfs, hstub, pageFragment, ih, concatFrags,
          strAppend_assoc, List.filter_cons]
      | badShape =>
        simp [Pdf2mdV2.processGo, hfs, hstub, pageFragment, ih, List.filter_cons]
      | transportError m =>
        simp [Pdf2mdV2.processGo, hfs, hstub, pageFragment, ih, List.filter_cons]
    · simp [Pdf2mdV2.processGo, hfs, pageFragment, ih, List.filter_cons]

/-- In the v2 loop every page whose file exists costs exactly one model
call, whether or not its own call or any other page's call fails, and no
page is retried. -/
theorem Pdf2mdV2.processGo_calls (fs : String → Bool) (stub : String → Response)
    (hasOutput : Bool) (l : List String) (idx : Nat) (acc : String) :
    (Pdf2mdV2.processGo fs stub hasOutput l idx acc).calls =
      (l.filter fs).length := by
  induction l generalizing idx acc with
  | nil => simp [Pdf2mdV2.processGo]
  | cons img rest ih =>
    by_cases hfs : fs img = true
    · cases hstub : stub img with
      | ok c =>
        by_cases hflush : (idx % 5 == 0 && hasOutput) = true
        · simp [Pdf2mdV2.processGo, hfs, hstub, hflush, ih, List.filter_cons]
        · simp [Pdf2mdV2.processGo, hfs, hstub, hflush, ih, List.filter_cons]
      | badShape =>
        simp [Pdf2mdV2.processGo, hfs, hstub, ih, List.filter_cons]
      | transportError m =>
        simp [Pdf2mdV2.processGo, hfs, hstub, ih, List.filter_cons]
    · simp [Pdf2mdV2.processGo, hfs, ih, List.filter_cons]

/-- Conservation across flushes: the concatenation of all periodic flush
payloads followed by the returned residual equals the accumulator extended
by the fragments of all successful pages, in order. -/
theorem Pdf2mdV2.processGo_conservation (fs : String → Bool)
    (stub : String → Response) (hasOutput : Bool) (l : List String) (idx : Nat)
    (acc : String) :
    concatFrags (Pdf2mdV2.processGo fs stub hasOutput l idx acc).flushes ++
        (Pdf2mdV2.processGo fs stub hasOutput l idx acc).residual =
      acc ++ concatFrags (l.filterMap (pageFragment fs stub)) := by
  induction l generalizing idx acc with
  | nil => simp [Pdf2mdV2.processGo, concatFrags, String.append_empty,
      String.empty_append]
  | cons img rest ih =>
    by_cases hfs : fs img = true
    · cases hstub : stub img with
      | ok c =>
        by_cases hflush : (idx % 5 == 0 && hasOutput) = true
        · simp [Pdf2mdV2.processGo, hfs, hstub, hflush, ih, pageFragment,
            List.filterMap_cons, concatFrags, String.empty_append,
            strAppend_assoc]
        · simp [Pdf2mdV2.processGo, hfs, hstub, hflush, ih, pageFragment,
            List.filterMap_cons, concatFrags, String.empty_append,
            strAppend_assoc]
      | badShape =>
        simp [Pdf2mdV2.processGo, hfs, hstub, ih, pageFragment,
          List.filterMap_cons]
      | transportError m =>
        simp [Pdf2mdV2.processGo, hfs, hstub, ih, pageFragment,
          List.filterMap_cons]
    · simp [Pdf2mdV2.processGo, hfs, ih, pageFragment, List.filterMap_cons]

/-- Pages whose file does not exist are transparent to the GUI loop: it
behaves exactly as if only the existing files had been listed. -/
theorem Gui.processGo_filter (fs : String → Bool) (stub : String → Response)
    (l : List String) (acc : String) (calls : Nat) :
    Gui.processGo fs stub l acc calls =
      Gui.processGo fs stub (l.filter fs) acc calls := by
  induction l generalizing acc calls with
  | nil => rfl
  | cons img rest ih =>
    by_cases hfs : fs img = true
    · cases hstub : stub img with
      | ok c => simp [Gui.processGo, hfs, hstub, ih, List.filter_cons]
      | badShape => simp [Gui.processGo, hfs, hstub, List.filter_cons]
      | transportError m => simp [Gui.processGo, hfs, hstub, List.filter_cons]
    · simp [Gui.processGo, hfs, ih, List.filter_cons]

/-- Filtering by file existence commutes with sorting the page list. -/
theorem sortPaths_filter (fs : String → Bool) (files : List String) :
    (sortPaths files).filter fs = sortPaths (files.filter fs) := by
  apply List.eq_of_perm_of_sorted (r := pathOrder)
  · exact ((sortPaths_perm files).filter fs).trans
      ((sortPaths_perm (files.filter fs)).symm)
  · exact (sortPaths_sorted files).filter fs
  · exact sortPaths_sorted (files.filter fs)

/-- The v1 loop only queries the model stub on pages of its list: two stubs
that agree on every listed page produce identical runs. -/
theorem Pdf2md.processGo_congr (fs : String → Bool) (stub₁ stub₂ : String → Response)
    (l : List String) (acc : String) (calls : Nat) :
    (∀ p ∈ l, stub₁ p = stub₂ p) →
      Pdf2md.processGo fs stub₁ l acc calls =
        Pdf2md.processGo fs stub₂ l acc calls := by
  induction l generalizing acc calls with
  | nil => intro _; rfl
  | cons img rest ih =>
    intro h
    have himg : stub₁ img = stub₂ img := h img (by simp)
    have hrest : ∀ p ∈ rest, stub₁ p = stub₂ p := fun p hp => h p (by simp [hp])
    by_cases hfs : fs img = true
    · cases hstub : stub₂ img with
      | ok c =>
        simp [Pdf2md.processGo, hfs, himg, hstub, ih _ _ hrest]
      | badShape => simp [Pdf2md.processGo, hfs, himg, hstub]
      | transportError m => simp [Pdf2md.processGo, hfs, himg, hstub]
    · simp [Pdf2md.processGo, hfs]

/-- When every page fails (missing file or failed model call), the v2 loop
never flushes and returns the accumulator untouched. -/
theorem Pdf2mdV2.processGo_allFail (fs : String → Bool) (stub : String → Response)
    (hasOutput : Bool) (l : List String) (idx : Nat) (acc : String) :
    (∀ p, pageFragment fs stub p = none) →
      Pdf2mdV2.processGo fs stub hasOutput l idx acc =
        ⟨acc, [], (l.filter fs).length⟩ := by
  intro h
  induction l generalizing idx acc with
  | nil => simp [Pdf2mdV2.processGo]
  | cons img rest ih =>
    by_cases hfs : fs img = true
    · cases hstub : stub img with
      | ok c =>
        exfalso
        have := h img
        simp [pageFragment, hfs, hstub] at this
      | badShape =>
        simp [Pdf2mdV2.processGo, hfs, hstub, ih, List.filter_cons]
      | transportError m =>
        simp [Pdf2mdV2.processGo, hfs, hstub, ih, List.filter_cons]
    · simp [Pdf2mdV2.processGo, hfs, ih, List.filter_cons]

/-! Claim theorems. -/

/-- C1: for every list of page-image paths and every deterministic model
stub, the combined markdown returned by `process_images_with_model`
(v2, no output filename) equals the concatenation, in ascending
lexicographic order of the image paths, of the response's content field
for each successfully processed page, each fragment verbatim followed by
the blank-line separator; failed pages contribute nothing and do not
change the relative order of the remaining fragments. -/
theorem claim1_order_preservation (fs : String → Bool) (stub : String → Response)
    (imageFiles : List String) :
    (Pdf2mdV2.process_images_with_model fs stub false imageFiles).residual =
        concatFrags ((sortPaths imageFiles).filterMap (pageFragment fs stub)) ∧
      List.Sorted pathOrder (sortPaths imageFiles) ∧
      (sortPaths imageFiles).Perm imageFiles := by
  refine ⟨?_, sortPaths_sorted _, sortPaths_perm _⟩
  unfold Pdf2mdV2.process_images_with_model
  rw [Pdf2mdV2.processGo_noOutput]
  exact String.empty_append _

/-- C2 counterexample: in `pdf2md.py`, a page whose model response has an
unexpected shape executes `break`: with two pages where the first fails,
the run returns with only one model call issued, although the second page's
call would have succeeded — the remaining pages are not processed. -/
theorem claim2_counterexample :
    Pdf2md.process_images_with_model (fun _ => true)
        (fun p => if p = "a.png" then Response.badShape else Response.ok "B")
        ["a.png", "b.png"] = Except.ok ("", 1) ∧
      pageFragment (fun _ => true)
        (fun p => if p = "a.png" then Response.badShape else Response.ok "B")
        "b.png" = some ("B" ++ "\n\n") :=
  ⟨rfl, rfl⟩

/-- C2 amended: in the v2 coordinator (`src/pdf2mdv2.py`) a page-level
failure is skipped without retry and every subsequent page is still
processed — every page whose file exists receives exactly one model call,
regardless of which pages fail; in `pdf2md.py`, by contrast, an unexpected
response shape stops the batch and a transport error aborts the run. -/
theorem claim2_amended_v2_continues (fs : String → Bool) (stub : String → Response)
    (hasOutput : Bool) (imageFiles : List String) :
    (Pdf2mdV2.process_images_with_model fs stub hasOutput imageFiles).calls =
      (imageFiles.filter fs).length := by
  unfold Pdf2mdV2.process_images_with_model
  rw [Pdf2mdV2.processGo_calls]
  exact ((sortPaths_perm imageFiles).filter fs).length_eq

/-- C5 counterexample: in `pdf2md.py` a missing image file makes `open`
raise an uncaught `FileNotFoundError`, aborting the whole batch instead of
continuing with the next page. -/
theorem claim5_counterexample :
    Pdf2md.process_images_with_model (fun p => p == "b.png")
        (fun _ => Response.ok "B") ["a.png", "b.png"]
      = Except.error ("FileNotFoundError: " ++ "a.png") :=
  rfl

/-- C5 amended: in the GUI coordinator (`pdf_to_markdown_gui.py`) a page
whose file does not exist is reported and skipped without any model call
and the batch continues — processing a page list behaves exactly as
processing only its existing files; in `pdf2md.py` a missing file raises
an uncaught error that aborts the batch (also without a model call for
that page). -/
theorem claim5_amended_gui_skips_missing (fs : String → Bool)
    (stub : String → Response) (imageFiles : List String) :
    Gui.process_images_with_model fs stub imageFiles =
      Gui.process_images_with_model fs stub (imageFiles.filter fs) := by
  unfold Gui.process_images_with_model
  rw [Gui.processGo_filter, sortPaths_filter]

/-- C6 counterexample: the PDF scan preserves directory-listing order, so
a listing that is not sorted yields an unsorted sequence of document
handles. -/
theorem claim6_counterexample :
    ¬ List.Sorted pathOrder (Pdf2md.listPdfFiles ["b.pdf", "a.pdf"]) := by
  decide

/-- C6 amended: the sequence of document handles produced by scanning a
source directory is the subsequence of the directory listing whose names
end in `.pdf`, in listing order; no lexicographic sorting is applied at
scan time (sorting happens later, on the page-image paths). -/
theorem claim6_amended_scan_order (listing : List String) :
    List.Sublist (Pdf2md.listPdfFiles listing) listing ∧
      ∀ f, f ∈ Pdf2md.listPdfFiles listing ↔
        f ∈ listing ∧ strEndsWith f ".pdf" = true := by
  refine ⟨List.filter_sublist _, fun f => ?_⟩
  simp [Pdf2md.listPdfFiles, List.mem_filter]

/-- C8: given an empty list of pages, the v1 pipeline issues no model
calls and returns the empty content without error, `main` writes no
output artifact, and the v2 pipeline likewise issues no calls and writes
nothing. -/
theorem claim8_empty_batch (fs : String → Bool) (stub : String → Response) :
    Pdf2md.process_images_with_model fs stub [] = Except.ok ("", 0) ∧
      Png2md.mainSaves fs stub [] = Except.ok [] ∧
      (Pdf2mdV2.process_images_with_model fs stub true []).calls = 0 ∧
      Pdf2mdV2.mainWrites fs stub [] = [] :=
  ⟨rfl, rfl, rfl, rfl⟩

/-- C3: with `flush_every` fixed at 5 and an output filename given, a run
over twelve pages (all successful) performs exactly 3 flush events — two
periodic flushes (after pages 5 and 10) and one final flush covering pages
11 and 12 — and a run over ten pages performs exactly 2 flush events (the
final accumulator is empty, so `main` writes nothing more). -/
theorem claim3_flush_counts (cf : String → String) :
    Pdf2mdV2.flushEvents (fun _ => true) (fun p => Response.ok (cf p)) pagesTwelve = 3 ∧
      (Pdf2mdV2.process_images_with_model (fun _ => true) (fun p => Response.ok (cf p))
          true pagesTwelve).flushes.length = 2 ∧
      (Pdf2mdV2.process_images_with_model (fun _ => true) (fun p => Response.ok (cf p))
          true pagesTwelve).residual =
        concatFrags ((pagesTwelve.drop 10).map (fun p => cf p ++ "\n\n")) ∧
      Pdf2mdV2.flushEvents (fun _ => true) (fun p => Response.ok (cf p)) pagesTen = 2 ∧
      (Pdf2mdV2.process_images_with_model (fun _ => true) (fun p => Response.ok (cf p))
          true pagesTen).residual = "" := by
  have hres12 : (Pdf2mdV2.process_images_with_model (fun _ => true)
      (fun p => Response.ok (cf p)) true pagesTwelve).residual
      = ("" ++ (cf "p11.jpg" ++ "\n\n")) ++ (cf "p12.jpg" ++ "\n\n") := rfl
  have hfl12 : (Pdf2mdV2.process_images_with_model (fun _ => true)
      (fun p => Response.ok (cf p)) true pagesTwelve).flushes.length = 2 := rfl
  have hres10 : (Pdf2mdV2.process_images_with_model (fun _ => true)
      (fun p => Response.ok (cf p)) true pagesTen).residual = "" := rfl
  refine ⟨?_, hfl12, ?_, ?_, hres10⟩
  · simp only [Pdf2mdV2.flushEvents, Pdf2mdV2.mainWrites]
    rw [hres12, if_neg (strAppend_sep_ne_empty _ _), List.length_append, hfl12]
    rfl
  · rw [hres12]
    simp [pagesTwelve, concatFrags, String.empty_append, String.append_empty,
      strAppend_assoc]
  · simp only [Pdf2mdV2.flushEvents, Pdf2mdV2.mainWrites]
    rw [hres10, if_pos rfl, List.append_nil]
    rfl

/-- C4 counterexample: a one-page batch whose only page fails leaves the
accumulated content empty, and `main` performs no flush at all — there is
no unconditional final flush event. -/
theorem claim4_counterexample :
    Pdf2mdV2.mainWrites (fun _ => true) (fun _ => Response.badShape) ["page1.jpg"] = [] ∧
      (Pdf2mdV2.process_images_with_model (fun _ => true) (fun _ => Response.badShape)
        true ["page1.jpg"]).residual = "" :=
  ⟨rfl, rfl⟩

/-- C4 amended: the final flush is conditional (`if combined_content:` in
`main` of `src/pdf2mdv2.py`): the remaining accumulated content is written
only when it is non-empty; in particular, when every page fails no flush
event occurs at all. -/
theorem claim4_amended_final_flush_conditional (fs : String → Bool)
    (stub : String → Response) (imageFiles : List String)
    (h : ∀ p, pageFragment fs stub p = none) :
    Pdf2mdV2.mainWrites fs stub imageFiles = [] := by
  simp only [Pdf2mdV2.mainWrites, Pdf2mdV2.process_images_with_model]
  rw [Pdf2mdV2.processGo_allFail fs stub true (sortPaths imageFiles) 1 "" h]
  simp

/-- Witness for C4's amended claim at a concrete all-failing batch. -/
theorem claim4_witness :
    (∀ p, pageFragment (fun _ => true) (fun _ => Response.badShape) p = none) ∧
      Pdf2mdV2.mainWrites (fun _ => true) (fun _ => Response.badShape)
        ["pg1.jpg", "pg2.jpg"] = [] :=
  ⟨fun _ => rfl,
    claim4_amended_final_flush_conditional (fun _ => true) (fun _ => Response.badShape)
      ["pg1.jpg", "pg2.jpg"] (fun _ => rfl)⟩

/-- C7: re-running the batch over the same page list with a deterministic
model stub (any two stubs that agree on every listed page) produces
byte-identical combined markdown content. -/
theorem claim7_deterministic_rerun (fs : String → Bool)
    (stub₁ stub₂ : String → Response) (imageFiles : List String)
    (h : ∀ p ∈ imageFiles, stub₁ p = stub₂ p) :
    Png2md.process_images_with_model fs stub₁ imageFiles =
      Png2md.process_images_with_model fs stub₂ imageFiles := by
  unfold Png2md.process_images_with_model Pdf2md.process_images_with_model
  exact Pdf2md.processGo_congr fs stub₁ stub₂ (sortPaths imageFiles) "" 0
    (fun p hp => h p ((sortPaths_perm imageFiles).mem_iff.mp hp))

/-- Witness for C7 at a concrete page list and two stubs that agree on it. -/
theorem claim7_witness :
    (∀ p ∈ ["page1.png"], (fun _ => Response.ok "Alpha") p =
        (fun q => if q = "page1.png" then Response.ok "Alpha" else Response.badShape) p) ∧
      Png2md.process_images_with_model (fun _ => true) (fun _ => Response.ok "Alpha")
          ["page1.png"] =
        Png2md.process_images_with_model (fun _ => true)
          (fun q => if q = "page1.png" then Response.ok "Alpha" else Response.badShape)
          ["page1.png"] :=
  ⟨by decide,
    claim7_deterministic_rerun (fun _ => true) (fun _ => Response.ok "Alpha")
      (fun q => if q = "page1.png" then Response.ok "Alpha" else Response.badShape)
      ["page1.png"] (by decide)⟩

/-- C9: every successful page's fragment is written to the output artifact
exactly once — the concatenation of all flush payloads (periodic flushes
followed by the conditional final flush) equals the concatenation of the
fragments of all successful pages, in page order: nothing is duplicated
across flushes and nothing is dropped between them. -/
theorem claim9_exactly_once (fs : String → Bool) (stub : String → Response)
    (imageFiles : List String) :
    concatFrags (Pdf2mdV2.mainWrites fs stub imageFiles) =
      concatFrags ((sortPaths imageFiles).filterMap (pageFragment fs stub)) := by
  have h := Pdf2mdV2.processGo_conservation fs stub true (sortPaths imageFiles) 1 ""
  rw [String.empty_append] at h
  simp only [Pdf2mdV2.mainWrites, Pdf2mdV2.process_images_with_model]
  by_cases hres :
      (Pdf2mdV2.processGo fs stub true (sortPaths imageFiles) 1 "").residual = ""
  · rw [if_pos hres, List.append_nil]
    rw [hres, String.append_empty] at h
    exact h
  · rw [if_neg hres, concatFrags_append]
    simpa [concatFrags, String.append_empty] using h

/-- C10: `save_output` requires a directory component in its filename —
when `os.path.dirname` is empty, the directory-creation branch is taken and
raises, so no write occurs; when it is non-empty, the directory is created
if missing and the content is appended, leaving existing file content in
place and all other files unchanged. -/
theorem claim10_save_output (fs : SysFS) (filename content : String) :
    (dirname filename = "" →
      save_output fs filename content =
        Except.error "FileNotFoundError: [Errno 2] No such file or directory:") ∧
    (dirname filename ≠ "" →
      ∃ fs', save_output fs filename content = Except.ok fs' ∧
        fs'.dirExists (dirname filename) = true ∧
        fs'.fileContent filename = fs.fileContent filename ++ content ∧
        ∀ g, g ≠ filename → fs'.fileContent g = fs.fileContent g) := by
  constructor
  · intro h
    unfold save_output pathExists makedirs
    rw [h]
    simp
  · intro h
    by_cases hex : pathExists fs (dirname filename) = true
    · refine ⟨appendFile fs filename content, ?_, ?_, ?_, ?_⟩
      · unfold save_output
        rw [if_pos hex]
      · unfold pathExists at hex
        rwa [if_neg h] at hex
      · simp [appendFile]
      · intro g hg
        simp [appendFile, hg]
    · unfold save_output
      rw [if_neg hex]
      unfold makedirs
      rw [if_neg h]
      refine ⟨_, rfl, ?_, ?_, ?_⟩
      · simp [appendFile]
      · simp [appendFile]
      · intro g hg
        simp [appendFile, hg]

/-- Witness for C10 at concrete filenames: a bare filename makes
`save_output` raise before writing, and a filename with a directory part
gets its content appended. -/
theorem claim10_witness :
    (save_output ⟨fun _ => false, fun _ => ""⟩ "report.md" "# hi"
        = Except.error "FileNotFoundError: [Errno 2] No such file or directory:") ∧
      (∃ fs', save_output ⟨fun _ => false, fun _ => ""⟩ "out/report.md" "# hi"
          = Except.ok fs' ∧
        fs'.dirExists (dirname "out/report.md") = true ∧
        fs'.fileContent "out/report.md"
          = (⟨fun _ => false, fun _ => ""⟩ : SysFS).fileContent "out/report.md" ++ "# hi" ∧
        ∀ g, g ≠ "out/report.md" →
          fs'.fileContent g = (⟨fun _ => false, fun _ => ""⟩ : SysFS).fileContent g) :=
  ⟨(claim10_save_output ⟨fun _ => false, fun _ => ""⟩ "report.md" "# hi").1 (by decide),
    (claim10_save_output ⟨fun _ => false, fun _ => ""⟩ "out/report.md" "# hi").2 (by decide)⟩
